import Mathlib

/-!
Verification development for the sensitivity-calculation core of the
rte-france/opf4borders repository (src/sensitivities/aux.py and
src/sensitivities/calculate_sensitivities.py).

The Python code is shallowly embedded: dataframe rows become Lean structures,
dataframe columns become lists, floating point values become rationals
(or reals where the formula involves pi), raised exceptions become Option
results, and the pypowsybl network object with its variants becomes an
explicit state record.  Each definition names the Python function it embeds.
-/

/-- Constant MIN_IMPEDANCE from aux.py line 26: reactances with absolute
value below this floor are replaced by the signed floor. -/
def MIN_IMPEDANCE : ℚ := 1 / 100000

/-- Constant SENSI_THRESHOLD from aux.py line 30.  The comment in the source
says sensitivities below this threshold are considered 0. -/
def SENSI_THRESHOLD : ℚ := 1 / 1000000

/-! ### NetworkConditioner: adjust_network (aux.py lines 33-87) -/

/-- State touched by adjust_network: hvdc line resistances, converter station
(loss_factor, voltage_regulator_on) pairs, battery connection flags, and the
reactance columns of lines and two-windings transformers. -/
structure RawNetwork where
  hvdc_r : List ℚ
  vsc_loss_factor_regulator : List (ℚ × Bool)
  battery_connected : List Bool
  line_x : List ℚ
  t2wt_x : List ℚ
deriving DecidableEq

/-- Embeds max_impedance_if_needed (aux.py lines 72-77): if the absolute
value of the reactance is below MIN_IMPEDANCE it is replaced by the floor,
keeping the sign, a zero reactance counting as nonnegative. -/
def max_impedance_if_needed (x : ℚ) : ℚ :=
  if |x| < MIN_IMPEDANCE then (if 0 ≤ x then MIN_IMPEDANCE else -MIN_IMPEDANCE) else x

/-- Embeds adjust_network (aux.py lines 33-87): zero all hvdc line
resistances, zero converter losses and switch their voltage regulation off,
disconnect all batteries, and apply the impedance floor to every line and
transformer reactance. -/
def adjust_network (n : RawNetwork) : RawNetwork :=
  { hvdc_r := n.hvdc_r.map (fun _ => 0)
    vsc_loss_factor_regulator := n.vsc_loss_factor_regulator.map (fun _ => (0, false))
    battery_connected := n.battery_connected.map (fun _ => false)
    line_x := n.line_x.map max_impedance_if_needed
    t2wt_x := n.t2wt_x.map max_impedance_if_needed }

/-! ### get_pst_data (aux.py lines 400-415) -/

/-- Row of the phase tap changer dataframe restricted to the columns
get_pst_data reads: the low, high and current tap positions. -/
structure PstRecord where
  id : String
  low_tap : ℤ
  high_tap : ℤ
  tap : ℤ
deriving DecidableEq

/-- Entry of the dictionary built by get_pst_data for one active PST. -/
structure PstEntry where
  min : ℚ
  max : ℚ
  referenceSetpoint : ℚ
deriving DecidableEq

/-- Embeds get_pst_data (aux.py lines 400-415).  The angle table
pst_angles.loc[(name, position), "alpha"] is modelled by the function
alpha.  For each active PST the angles at the low and high taps are read,
swapped when the high-tap angle is smaller, and reported with the angle at
the current tap as reference. -/
def get_pst_data (alpha : String → ℤ → ℚ) (active_psts : List PstRecord) :
    List (String × PstEntry) :=
  active_psts.map (fun p =>
    let alpha_min := alpha p.id p.low_tap
    let alpha_max := alpha p.id p.high_tap
    let pair := if alpha_max < alpha_min then (alpha_max, alpha_min) else (alpha_min, alpha_max)
    let alpha_0 := alpha p.id p.tap
    (p.id, { min := pair.1, max := pair.2, referenceSetpoint := alpha_0 }))

/-! ### Monitored branch filtering (calculate_sensitivities.py lines 116-119) -/

/-- Embeds the monitored-branch loading step of main (calculate_sensitivities.py
lines 116-119).  The csv column becomes the list monitored; the ValueError
raised when the list is empty becomes none.  Note the order in the source:
the emptiness test is executed before the intersection with the branches
present in the network. -/
def filter_monitored_branches (monitored : List String) (network_branches : List String) :
    Option (List String) :=
  if monitored.length = 0 then none
  else some (monitored.filter (fun b => network_branches.contains b))

/-! ### add_generators_at_hvdcs_extremities (aux.py lines 251-299) -/

/-- Attributes of a generator created by add_generators_at_hvdcs_extremities. -/
structure GenRec where
  id : String
  voltage_level_id : String
  target_p : ℚ
  min_p : ℚ
  max_p : ℚ
  target_q : ℚ
  voltage_regulator_on : Bool
deriving DecidableEq

/-- Embeds the loop body of add_generators_at_hvdcs_extremities (aux.py lines
262-295) for one HVDC link with terminal voltage levels vl1 and vl2.  The
try/except around network.create_generators is abstracted by the flag
bus_attach_ok: when true the bus-breaker path runs (create_generators with
target_p=0, min_p=-1000, max_p=1000, target_q=0, regulation off); when the
attachment raises, the node/breaker fallback creates the two generators with
create_generator_bay and the keyword values max_p=100, min_p=0, target_p=0,
target_q=0, regulation off. -/
def add_generators_at_hvdcs_extremities (bus_attach_ok : Bool) (vl1 vl2 : String) :
    List GenRec :=
  let origin_id := vl1 ++ "_fict_hvdc_gen"
  let end_id := vl2 ++ "_fict_hvdc_gen"
  if bus_attach_ok then
    [{ id := origin_id, voltage_level_id := vl1, target_p := 0, min_p := -1000,
       max_p := 1000, target_q := 0, voltage_regulator_on := false },
     { id := end_id, voltage_level_id := vl2, target_p := 0, min_p := -1000,
       max_p := 1000, target_q := 0, voltage_regulator_on := false }]
  else
    [{ id := origin_id, voltage_level_id := vl1, target_p := 0, min_p := 0,
       max_p := 100, target_q := 0, voltage_regulator_on := false },
     { id := end_id, voltage_level_id := vl2, target_p := 0, min_p := 0,
       max_p := 100, target_q := 0, voltage_regulator_on := false }]

/-! ### Matrix value conditioning (aux.py lines 468, 486, 494) -/

/-- Round a rational to the nearest integer, ties to even, matching the
numpy/pandas rounding used by DataFrame.round. -/
def roundHalfEven (q : ℚ) : ℤ :=
  let f := ⌊q⌋
  let r := q - f
  if r < 1 / 2 then f
  else if 1 / 2 < r then f + 1
  else if f % 2 = 0 then f else f + 1

/-- Rounding to six decimal digits, as in DataFrame.round(6). -/
def round6 (q : ℚ) : ℚ := (roundHalfEven (q * 1000000) : ℚ) / 1000000

/-- Embeds DataFrame.fillna(d): a missing (NaN) value becomes d. -/
def fillna (d : ℚ) : Option ℚ → ℚ
  | none => d
  | some v => v

/-- Embeds the elementwise effect of
result.get_sensitivity_matrix(name).round(6).fillna(0) (aux.py lines 468 and
494): every entry (none modelling NaN) is rounded to six decimals and any
missing value is replaced by 0. -/
def process_sensitivity_value (v : Option ℚ) : ℚ := fillna 0 (v.map round6)

/-! ### Theorems -/

theorem max_impedance_if_needed_idem (x : ℚ) :
    max_impedance_if_needed (max_impedance_if_needed x) = max_impedance_if_needed x := by
  by_cases h : |x| < MIN_IMPEDANCE
  · by_cases hx : 0 ≤ x
    · simp only [max_impedance_if_needed, if_pos h, if_pos hx]
      norm_num [MIN_IMPEDANCE]
    · simp only [max_impedance_if_needed, if_pos h, if_neg hx]
      norm_num [MIN_IMPEDANCE]
  · simp only [max_impedance_if_needed, if_neg h]

/-- Claim C9: the network conditioning operation adjust_network is
idempotent: applying it twice yields the same hvdc resistances, converter
loss factors and regulation flags, battery connection flags, and floored
line and transformer reactances as applying it once. -/
theorem adjust_network_idempotent (n : RawNetwork) :
    adjust_network (adjust_network n) = adjust_network n := by
  have hf : max_impedance_if_needed ∘ max_impedance_if_needed = max_impedance_if_needed :=
    funext fun x => max_impedance_if_needed_idem x
  simp [adjust_network, List.map_map, hf, Function.comp]

/-- Claim C10: every entry returned by get_pst_data satisfies min ≤ max,
because the low-tap and high-tap angles are swapped when the high-tap angle
is the smaller one. -/
theorem get_pst_data_min_le_max (alpha : String → ℤ → ℚ) (psts : List PstRecord)
    (nm : String) (e : PstEntry) (h : (nm, e) ∈ get_pst_data alpha psts) :
    e.min ≤ e.max := by
  simp only [get_pst_data, List.mem_map] at h
  obtain ⟨p, -, hp⟩ := h
  rw [Prod.mk.injEq] at hp
  obtain ⟨-, he⟩ := hp
  by_cases hswap : alpha p.id p.high_tap < alpha p.id p.low_tap
  · rw [if_pos hswap] at he
    rw [← he]
    exact le_of_lt hswap
  · rw [if_neg hswap] at he
    rw [← he]
    exact le_of_not_lt hswap

def alpha_witness : String → ℤ → ℚ := fun _ t => if t = 0 then 5 else 2

def pst_witness : PstRecord := { id := "PST1", low_tap := 0, high_tap := 1, tap := 0 }

theorem get_pst_data_min_le_max_witness :
    ("PST1", ({ min := 2, max := 5, referenceSetpoint := 5 } : PstEntry)) ∈
      get_pst_data alpha_witness [pst_witness] ∧
    ({ min := 2, max := 5, referenceSetpoint := 5 } : PstEntry).min ≤
      ({ min := 2, max := 5, referenceSetpoint := 5 } : PstEntry).max :=
  ⟨by decide, get_pst_data_min_le_max alpha_witness [pst_witness] "PST1" _ (by decide)⟩

/-- Claim C6: evaluation of the monitored-branch filter at a non-empty input
list none of whose ids exists in the network.  The source raises (none) only
when the raw list is empty, before intersecting with the network branches,
so here the run continues (some) with an empty monitored set instead of
aborting. -/
theorem filter_monitored_branches_no_abort :
    filter_monitored_branches ["b1"] ["x"] = some [] ∧
    (["b1"] : List String).length ≠ 0 := by
  constructor
  · rfl
  · decide

/-- Counterexample to claim C7: on the node/breaker fallback path the two
fictitious generators are created with min_p = 0 and max_p = 100, so the
power bounds are not symmetric. -/
theorem fallback_generator_bounds_not_symmetric :
    (add_generators_at_hvdcs_extremities false "VL1" "VL2").all
      (fun g => decide (g.min_p = -g.max_p)) = false := by
  decide

/-- Claim C7 (amended): the fictitious terminal generators always have zero
target injection, zero reactive target and voltage regulation off; on the
bus-breaker path their bounds are the symmetric pair -1000/1000, while on
the node/breaker fallback path they are 0/100 (not symmetric). -/
theorem fictitious_generator_attributes (ok : Bool) (vl1 vl2 : String) (g : GenRec)
    (h : g ∈ add_generators_at_hvdcs_extremities ok vl1 vl2) :
    g.target_p = 0 ∧ g.target_q = 0 ∧ g.voltage_regulator_on = false ∧
    g.min_p = (if ok then -1000 else 0) ∧ g.max_p = (if ok then 1000 else 100) := by
  cases ok <;>
    simp only [add_generators_at_hvdcs_extremities, if_true, if_false,
      Bool.false_eq_true, List.mem_cons, List.mem_singleton, List.not_mem_nil,
      or_false] at h <;>
    rcases h with h | h <;> subst h <;> simp

def fallback_gen_witness : GenRec :=
  { id := "VL1_fict_hvdc_gen", voltage_level_id := "VL1", target_p := 0, min_p := 0,
    max_p := 100, target_q := 0, voltage_regulator_on := false }

theorem fictitious_generator_attributes_witness :
    (fallback_gen_witness ∈ add_generators_at_hvdcs_extremities false "VL1" "VL2") ∧
    (fallback_gen_witness.target_p = 0 ∧ fallback_gen_witness.target_q = 0 ∧
      fallback_gen_witness.voltage_regulator_on = false ∧
      fallback_gen_witness.min_p = (if false then -1000 else 0) ∧
      fallback_gen_witness.max_p = (if false then 1000 else 100)) :=
  ⟨by decide, fictitious_generator_attributes false "VL1" "VL2" _ (by decide)⟩

/-- Counterexample to claim C8: the value 7e-7 has magnitude strictly below
SENSI_THRESHOLD = 1e-6, yet rounding to six decimals maps it to 1e-6, which
is not zero: the threshold constant is never applied when folding, only
round(6).fillna(0) is. -/
theorem sensitivity_threshold_not_applied :
    |(7 / 10000000 : ℚ)| < SENSI_THRESHOLD ∧
    process_sensitivity_value (some (7 / 10000000)) = 1 / 1000000 ∧
    (1 / 1000000 : ℚ) ≠ 0 := by
  have h1 : ⌊(7 / 10000000 : ℚ) * 1000000⌋ = 0 := by
    rw [Int.floor_eq_iff]
    push_cast
    constructor <;> norm_num
  refine ⟨?_, ?_, by norm_num⟩
  · rw [abs_of_pos (by norm_num : (0 : ℚ) < 7 / 10000000)]
    norm_num [SENSI_THRESHOLD]
  · have h2 : round6 (7 / 10000000 : ℚ) = 1 / 1000000 := by
      unfold round6 roundHalfEven
      rw [h1]
      norm_num
    simp [process_sensitivity_value, fillna, h2]

/-- Claim C8 (amended): before folding, every sensitivity value is rounded
to six decimal digits (half to even) and any NaN is replaced by 0;
consequently a value whose magnitude is at most half of 1e-6 becomes exactly
zero, and a missing value becomes zero, never undefined. -/
theorem sensitivity_rounding_floor (q : ℚ) (h : |q| ≤ 1 / 2000000) :
    process_sensitivity_value (some q) = 0 ∧ process_sensitivity_value none = 0 := by
  constructor
  · have ht : |q * 1000000| ≤ 1 / 2 := by
      rw [abs_mul]
      have habs : |(1000000 : ℚ)| = 1000000 := by norm_num
      rw [habs]
      linarith
    rw [abs_le] at ht
    obtain ⟨htl, htr⟩ := ht
    have hz : roundHalfEven (q * 1000000) = 0 := by
      rcases le_or_lt 0 (q * 1000000) with h0 | h0
      · have hf : ⌊q * 1000000⌋ = 0 := by
          rw [Int.floor_eq_iff]
          push_cast
          constructor
          · linarith
          · linarith
        simp only [roundHalfEven, hf]
        split_ifs with hc1 hc2 hc3
        · rfl
        · exfalso
          push_cast at hc2
          linarith
        · rfl
        · exact absurd rfl hc3
      · have hf : ⌊q * 1000000⌋ = -1 := by
          rw [Int.floor_eq_iff]
          push_cast
          constructor
          · linarith
          · linarith
        simp only [roundHalfEven, hf]
        split_ifs with hc1 hc2 hc3
        · exfalso
          push_cast at hc1
          linarith
        · omega
        · exact absurd hc3 (by decide)
        · omega
    simp [process_sensitivity_value, fillna, round6, hz]
  · rfl

theorem sensitivity_rounding_floor_witness :
    |(1 / 4000000 : ℚ)| ≤ 1 / 2000000 ∧
    (process_sensitivity_value (some (1 / 4000000)) = 0 ∧
      process_sensitivity_value none = 0) :=
  have habs : |(1 / 4000000 : ℚ)| ≤ 1 / 2000000 := by
    rw [abs_of_pos (by norm_num : (0 : ℚ) < 1 / 4000000)]
    norm_num
  ⟨habs, sensitivity_rounding_floor (1 / 4000000) habs⟩

/-! ### ExchangeCalculator: calculate_exchange, AC branch part (aux.py lines 302-332) -/

/-- Row of the branches dataframe built at the start of calculate_exchange:
branch id, the two terminal voltage level ids, the two terminal active
powers, and the joined countries of the two voltage levels. -/
structure BranchRow where
  id : String
  voltage_level1_id : String
  voltage_level2_id : String
  p1 : ℚ
  p2 : ℚ
  country_or : String
  country_end : String
deriving DecidableEq

/-- Number of branch terminals attached to the voltage level vl, as computed
inside the false-border loops of calculate_exchange (aux.py lines 318 and
324): occurrences of vl in the voltage_level1_id column plus occurrences in
the voltage_level2_id column. -/
def branch_degree (rows : List BranchRow) (vl : String) : Nat :=
  (rows.filter (fun b => b.voltage_level1_id == vl)).length +
  (rows.filter (fun b => b.voltage_level2_id == vl)).length

/-- First false-border loop (aux.py lines 315-319): over branches with
country_end = country1 and country_or = country2, collect the side-2 voltage
levels of degree below two. -/
def false_border_pass1 (rows : List BranchRow) (c1 c2 : String) : List String :=
  (rows.filter (fun r => r.country_end == c1 && r.country_or == c2)).filterMap
    (fun r => if branch_degree rows r.voltage_level2_id < 2 then some r.voltage_level2_id
      else none)

/-- Relabel after the first loop (aux.py line 320): every branch whose side-2
voltage level was collected gets country_end country2. -/
def relabel_pass1 (rows : List BranchRow) (fb : List String) (c2 : String) : List BranchRow :=
  rows.map (fun r => if fb.contains r.voltage_level2_id then { r with country_end := c2 } else r)

/-- Second false-border loop (aux.py lines 321-325): over branches with
country_end = country2 and country_or = country1, collect the side-1 voltage
levels of degree below two. -/
def false_border_pass2 (rows : List BranchRow) (c1 c2 : String) : List String :=
  (rows.filter (fun r => r.country_end == c2 && r.country_or == c1)).filterMap
    (fun r => if branch_degree rows r.voltage_level1_id < 2 then some r.voltage_level1_id
      else none)

/-- Relabel after the second loop (aux.py line 326): every branch whose
side-1 voltage level was collected gets country_end country2 (the source
writes to the country_end column here as well). -/
def relabel_pass2 (rows : List BranchRow) (fb : List String) (c2 : String) : List BranchRow :=
  rows.map (fun r => if fb.contains r.voltage_level1_id then { r with country_end := c2 } else r)

/-- Border filtering of calculate_exchange (aux.py lines 328-329): after the
two relabel passes, keep the branches whose two countries both lie in the
pair and differ. -/
def border_branches (rows : List BranchRow) (c1 c2 : String) : List BranchRow :=
  let relabeled1 := relabel_pass1 rows (false_border_pass1 rows c1 c2) c2
  let relabeled2 := relabel_pass2 relabeled1 (false_border_pass2 relabeled1 c1 c2) c2
  (relabeled2.filter (fun r => (r.country_or == c1 || r.country_or == c2) &&
      (r.country_end == c1 || r.country_end == c2))).filter
    (fun r => !(r.country_or == r.country_end))

/-- AC exchange sum of calculate_exchange (aux.py lines 330-332 and 338-340):
each border branch contributes its country1-side power (p1 when the origin
country is country1, p2 otherwise); the sum is rescaled by 100 when the
network is in per-unit mode. -/
def calculate_exchange_ac (rows : List BranchRow) (c1 c2 : String) (per_unit : Bool) : ℚ :=
  let s := ((border_branches rows c1 c2).map
    (fun r => if r.country_or == c1 then r.p1 else r.p2)).sum
  if per_unit then 100 * s else s

/-- Branch from voltage level A (country FR) to the dead-end voltage level X
(country ES): X has degree one, so this is a false-border stub in the
direction origin country1, far end country2. -/
def stub_branch : BranchRow :=
  { id := "B", voltage_level1_id := "A", voltage_level2_id := "X", p1 := 5, p2 := -5,
    country_or := "FR", country_end := "ES" }

/-- Interior branch keeping the voltage level A at degree two. -/
def inner_branch : BranchRow :=
  { id := "C", voltage_level1_id := "A", voltage_level2_id := "A3", p1 := 1, p2 := -1,
    country_or := "FR", country_end := "FR" }

def cex_rows : List BranchRow := [stub_branch, inner_branch]

/-- Claim C3, evaluated at a failing input: on a network where branch B runs
from A (country1, degree 2) to the dead-end X (country2, degree 1), the
far-end voltage level X has degree below two, yet B stays in the
border-branch set and its country1-side power is summed into the AC
exchange.  The second false-border pass examines the side-1 voltage level
instead of the far end and assigns country_end = country2, which is already
country2, so a stub in this direction is never relabeled, contradicting the
claim and the comment in the source. -/
theorem false_border_stub_retained :
    branch_degree cex_rows "X" = 1 ∧
    (border_branches cex_rows "FR" "ES").map BranchRow.id = ["B"] ∧
    calculate_exchange_ac cex_rows "FR" "ES" false = 5 := by
  refine ⟨by decide, by decide, ?_⟩
  have hb : border_branches cex_rows "FR" "ES" = [stub_branch] := by decide
  norm_num [calculate_exchange_ac, hb, stub_branch, List.sum_cons, List.sum_nil]

/-! ### HvdcEmulationModeler: create_ac_lines_to_simulate_hvdc_ac_emulation
(aux.py lines 169-248), per-link branch creation (lines 190-239) -/

/-- Columns of the enhanced hvdc dataframe used by the conversion loop: the
converter mode string and the nominal voltages of the side-1 and side-2
voltage levels, together with the droop coefficient (MW per degree) of the
hvdcAngleDroopActivePowerControl extension.  The id is carried for the name
of the created branch; the bus resolution uses voltage level ids and buses
only and does not enter the impedance computation, so it is not modelled. -/
structure HvdcEmulationRecord where
  id : String
  converters_mode : String
  voltage_level_id_or : String
  voltage_level_id_end : String
  nominal_v_or : ℝ
  nominal_v_end : ℝ
  droop : ℝ
  p0 : ℝ

/-- Created equivalent AC line: id, series resistance, reactance and the two
attachment voltage levels. -/
structure AcEqLine where
  id : String
  r : ℝ
  x : ℝ
  voltage_level1_id : String
  voltage_level2_id : String

/-- Nominal voltage on the rectifier side: positive HVDC flow runs from
rectifier to inverter, and aux.py line 194 picks the side-1 columns as origin
exactly when converters_mode is SIDE_1_RECTIFIER_SIDE_2_INVERTER. -/
noncomputable def rectifier_side_nominal_v (h : HvdcEmulationRecord) : ℝ :=
  if h.converters_mode = "SIDE_1_RECTIFIER_SIDE_2_INVERTER" then h.nominal_v_or
  else h.nominal_v_end

/-- Nominal voltage on the inverter side (aux.py line 195). -/
noncomputable def inverter_side_nominal_v (h : HvdcEmulationRecord) : ℝ :=
  if h.converters_mode = "SIDE_1_RECTIFIER_SIDE_2_INVERTER" then h.nominal_v_end
  else h.nominal_v_or

/-- Embeds the per-link body of the conversion loop (aux.py lines 190-239):
select origin and end columns by converter mode, convert the droop from MW
per degree to MW per radian, normalize it to the 100 MW base, invert to get
the reactance in per unit, and rescale by the product of the terminal
nominal voltages over 100; the created line has zero resistance and the
deterministic name built from the link id. -/
noncomputable def create_ac_line_for_hvdc (h : HvdcEmulationRecord) : AcEqLine :=
  let origin_first := h.converters_mode = "SIDE_1_RECTIFIER_SIDE_2_INVERTER"
  let voltage_level_origin := if origin_first then h.voltage_level_id_or
    else h.voltage_level_id_end
  let nominal_v_origin := if origin_first then h.nominal_v_or else h.nominal_v_end
  let voltage_level_end := if origin_first then h.voltage_level_id_end
    else h.voltage_level_id_or
  let nominal_v_end := if origin_first then h.nominal_v_end else h.nominal_v_or
  let droop1 := h.droop * (180 / Real.pi)
  let droop2 := droop1 / 100
  let line_reactance1 := 1 / droop2
  let line_reactance := line_reactance1 * (nominal_v_origin * nominal_v_end / 100)
  { id := "ac_eq_line_" ++ h.id, r := 0, x := line_reactance,
    voltage_level1_id := voltage_level_origin, voltage_level2_id := voltage_level_end }

/-- Droop converted to power per radian on the 0-100 base, as the claim
states it: droop in MW per degree times 180 over pi, divided by 100. -/
noncomputable def claim_droop_rad_per_unit (droop_mw_per_deg : ℝ) : ℝ :=
  droop_mw_per_deg * (180 / Real.pi) / 100

/-- Reactance formula exactly as the claim states it. -/
noncomputable def claim_equivalent_reactance (droop v_origin v_end : ℝ) : ℝ :=
  (1 / claim_droop_rad_per_unit droop) * (v_origin * v_end / 100)

/-- Claim C4: for every droop-enabled HVDC link converted to an equivalent AC
branch, the created branch has zero resistance and reactance equal to
(1 / droop_rad_per_unit) times (V_origin times V_end over 100), where
droop_rad_per_unit = droop * (180 / pi) / 100 and the origin and end
voltages are the rectifier-side and inverter-side nominal voltages; an
equivalent closed form is pi * V_rect * V_inv / (180 * droop). -/
theorem hvdc_ac_emulation_reactance (h : HvdcEmulationRecord) :
    (create_ac_line_for_hvdc h).r = 0 ∧
    (create_ac_line_for_hvdc h).x =
      claim_equivalent_reactance h.droop (rectifier_side_nominal_v h)
        (inverter_side_nominal_v h) ∧
    (create_ac_line_for_hvdc h).x =
      Real.pi * rectifier_side_nominal_v h * inverter_side_nominal_v h / (180 * h.droop) := by
  refine ⟨rfl, ?_, ?_⟩
  · simp only [create_ac_line_for_hvdc, claim_equivalent_reactance, claim_droop_rad_per_unit,
      rectifier_side_nominal_v, inverter_side_nominal_v]
  · simp only [create_ac_line_for_hvdc, rectifier_side_nominal_v, inverter_side_nominal_v]
    by_cases hd : h.droop = 0
    · simp [hd]
    · have hpi : Real.pi ≠ 0 := Real.pi_ne_zero
      field_simp [hd, hpi]
      ring_nf

/-! ### get_hvdc_sensitivities_from_generators (aux.py lines 464-481) -/

/-- A named sensitivity matrix after round(6).fillna(0): rows keyed by lever
name, each row the vector of per-branch sensitivities in a fixed column
order. -/
abbrev SensMatrix := List (String × List ℚ)

/-- Pointwise difference of two rows, as in the pandas row subtraction at
aux.py lines 471-472 (the columns of the two rows are aligned because both
come from the same matrix). -/
def vec_sub (a b : List ℚ) : List ℚ := List.zipWith (fun x y => x - y) a b

/-- Removal of the two terminal-generator rows: sensitivities_df.drop of the
origin and end labels (aux.py line 474). -/
def drop_terminal_rows (df : SensMatrix) (o e : String) : SensMatrix :=
  df.filter (fun p => !(p.1 == o) && !(p.1 == e))

/-- The loop of get_hvdc_sensitivities_from_generators (aux.py lines
470-474): for each (hvdc, origin, end) triple from the fict_gen dataframe,
look up the end and origin rows in the current matrix (pandas loc raises
when a label is absent, modelled by none), append the difference row under
the hvdc name, and drop the two terminal rows before the next iteration. -/
def hvdc_row_loop : List (String × String × String) → SensMatrix → SensMatrix →
    Option (SensMatrix × SensMatrix)
  | [], df, acc => some (acc, df)
  | x :: rest, df, acc =>
    match List.lookup x.2.2 df, List.lookup x.2.1 df with
    | some row_end, some row_origin =>
      hvdc_row_loop rest (drop_terminal_rows df x.2.1 x.2.2)
        (acc ++ [(x.1, vec_sub row_end row_origin)])
    | _, _ => none

/-- Countertrading coefficient of a generator (the generators_to_ct dict). -/
def ct_coefficient (ct : List (String × ℚ)) (k : String) : ℚ := (List.lookup k ct).getD 0

/-- Embeds get_hvdc_sensitivities_from_generators (aux.py lines 464-481),
applied to a matrix whose entries already passed round(6).fillna(0).
Returns the hvdc difference rows, the generator rows not designated for
countertrading, and the per-column weighted countertrading sum. -/
def get_hvdc_sensitivities_from_generators (df0 : SensMatrix)
    (fict_gen : List (String × String × String)) (generators_to_ct : List (String × ℚ)) :
    Option (SensMatrix × SensMatrix × List ℚ) :=
  match hvdc_row_loop fict_gen df0 [] with
  | none => none
  | some (hvdc_rows, remaining) =>
    let ct_keys := generators_to_ct.map Prod.fst
    let ct_rows := remaining.filter (fun p => ct_keys.contains p.1)
    let ncols := ((df0.head?).map (fun p => p.2.length)).getD 0
    let ct_sum := (List.range ncols).map (fun j =>
      (ct_rows.map (fun p => ct_coefficient generators_to_ct p.1 * p.2.getD j 0)).sum)
    some (hvdc_rows, remaining.filter (fun p => !(ct_keys.contains p.1)), ct_sum)

/-- All terminal generator names of the fict_gen table, in order. -/
def terminal_ids (fg : List (String × String × String)) : List String :=
  fg.flatMap (fun x => [x.2.1, x.2.2])

theorem lookup_cons_pair (k a : String) (b : List ℚ) (t : List (String × List ℚ)) :
    List.lookup k ((a, b) :: t) = if k == a then some b else List.lookup k t := by
  rcases h : k == a <;> simp [List.lookup, h]

theorem lookup_filter_of_keep (f : String × List ℚ → Bool) (df : SensMatrix) (k : String)
    (hk : ∀ b, f (k, b) = true) :
    List.lookup k (df.filter f) = List.lookup k df := by
  induction df with
  | nil => rfl
  | cons p t ih =>
    rcases p with ⟨a, b⟩
    by_cases hka : k = a
    · subst hka
      rw [List.filter_cons, if_pos (hk b), lookup_cons_pair, lookup_cons_pair]
      simp
    · have hbeq : (k == a) = false := by simp [hka]
      rw [List.filter_cons]
      by_cases hf : f (a, b) = true
      · rw [if_pos hf, lookup_cons_pair, lookup_cons_pair, hbeq]
        simp [ih]
      · rw [if_neg hf, lookup_cons_pair, hbeq]
        simp [ih]

theorem lookup_filter_of_drop (f : String × List ℚ → Bool) (df : SensMatrix) (k : String)
    (hk : ∀ b, f (k, b) = false) :
    List.lookup k (df.filter f) = none := by
  induction df with
  | nil => rfl
  | cons p t ih =>
    rcases p with ⟨a, b⟩
    by_cases hka : k = a
    · subst hka
      rw [List.filter_cons, if_neg (by simp [hk b])]
      exact ih
    · have hbeq : (k == a) = false := by simp [hka]
      rw [List.filter_cons]
      by_cases hf : f (a, b) = true
      · rw [if_pos hf, lookup_cons_pair, hbeq]
        simp [ih]
      · rw [if_neg hf]
        exact ih

theorem lookup_filter_of_none (f : String × List ℚ → Bool) (df : SensMatrix) (k : String)
    (hk : List.lookup k df = none) :
    List.lookup k (df.filter f) = none := by
  induction df with
  | nil => rfl
  | cons p t ih =>
    rcases p with ⟨a, b⟩
    rw [lookup_cons_pair] at hk
    by_cases hka : (k == a) = true
    · rw [if_pos hka] at hk
      cases hk
    · rw [if_neg hka] at hk
      rw [List.filter_cons]
      by_cases hf : f (a, b) = true
      · rw [if_pos hf, lookup_cons_pair, if_neg hka]
        exact ih hk
      · rw [if_neg hf]
        exact ih hk

theorem lookup_map_rows (fg : List (String × String × String))
    (g : String × String × String → List ℚ) (x : String × String × String)
    (hx : x ∈ fg) (hnd : (fg.map Prod.fst).Nodup) :
    List.lookup x.1 (fg.map (fun y => (y.1, g y))) = some (g x) := by
  induction fg with
  | nil => cases hx
  | cons y rest ih =>
    rw [List.map_cons, lookup_cons_pair]
    rcases List.mem_cons.mp hx with rfl | hx2
    · simp
    · have hne : x.1 ≠ y.1 := by
        intro hcontra
        have hyin : y.1 ∈ rest.map Prod.fst := by
          rw [← hcontra]
          exact List.mem_map_of_mem Prod.fst hx2
        rw [List.map_cons, List.nodup_cons] at hnd
        exact hnd.1 hyin
      rw [if_neg (by simp [hne])]
      rw [List.map_cons, List.nodup_cons] at hnd
      exact ih hx2 hnd.2

theorem hvdc_row_loop_spec (fg : List (String × String × String)) (df acc : SensMatrix)
    (hpres : ∀ x ∈ fg, (List.lookup x.2.1 df).isSome ∧ (List.lookup x.2.2 df).isSome)
    (hnd : (terminal_ids fg).Nodup) :
    ∃ rem, hvdc_row_loop fg df acc = some (acc ++ fg.map (fun x =>
        (x.1, vec_sub ((List.lookup x.2.2 df).getD []) ((List.lookup x.2.1 df).getD []))), rem) ∧
      (∀ k, k ∈ terminal_ids fg → List.lookup k rem = none) ∧
      (∀ k, List.lookup k df = none → List.lookup k rem = none) := by
  induction fg generalizing df acc with
  | nil =>
    refine ⟨df, by simp [hvdc_row_loop], ?_, fun k h => h⟩
    intro k hk
    simp [terminal_ids] at hk
  | cons x rest ih =>
    obtain ⟨ho, he⟩ := hpres x (List.mem_cons_self x rest)
    obtain ⟨ro, hro⟩ := Option.isSome_iff_exists.mp ho
    obtain ⟨re, hre⟩ := Option.isSome_iff_exists.mp he
    have hterms : terminal_ids (x :: rest) = x.2.1 :: x.2.2 :: terminal_ids rest := by
      simp [terminal_ids]
    rw [hterms] at hnd
    rw [List.nodup_cons] at hnd
    obtain ⟨hx1_notin, hnd2⟩ := hnd
    rw [List.nodup_cons] at hnd2
    obtain ⟨hx2_notin, hnd_rest⟩ := hnd2
    have hx1_rest : x.2.1 ∉ terminal_ids rest := fun hc => hx1_notin (List.mem_cons_of_mem _ hc)
    have hoe : x.2.1 ≠ x.2.2 := fun hc => hx1_notin (hc ▸ List.mem_cons_self _ _)
    have hlookup_pres : ∀ k, k ≠ x.2.1 → k ≠ x.2.2 →
        List.lookup k (drop_terminal_rows df x.2.1 x.2.2) = List.lookup k df := by
      intro k h1 h2
      exact lookup_filter_of_keep _ df k (fun b => by simp [h1, h2])
    have hpres2 : ∀ y ∈ rest,
        (List.lookup y.2.1 (drop_terminal_rows df x.2.1 x.2.2)).isSome ∧
        (List.lookup y.2.2 (drop_terminal_rows df x.2.1 x.2.2)).isSome := by
      intro y hy
      have hy1 : y.2.1 ∈ terminal_ids rest := by
        simp [terminal_ids, List.mem_flatMap]
        exact ⟨y.1, y.2.1, y.2.2, hy, Or.inl rfl⟩
      have hy2 : y.2.2 ∈ terminal_ids rest := by
        simp [terminal_ids, List.mem_flatMap]
        exact ⟨y.1, y.2.1, y.2.2, hy, Or.inr rfl⟩
      rw [hlookup_pres y.2.1 (fun hc => hx1_rest (hc ▸ hy1)) (fun hc => hx2_notin (hc ▸ hy1)),
        hlookup_pres y.2.2 (fun hc => hx1_rest (hc ▸ hy2)) (fun hc => hx2_notin (hc ▸ hy2))]
      exact hpres y (List.mem_cons_of_mem x hy)
    obtain ⟨rem, hloop, hterm, hnone⟩ :=
      ih (drop_terminal_rows df x.2.1 x.2.2)
        (acc ++ [(x.1, vec_sub re ro)]) hpres2 hnd_rest
    have hmap_eq : rest.map (fun y =>
        (y.1, vec_sub ((List.lookup y.2.2 (drop_terminal_rows df x.2.1 x.2.2)).getD [])
          ((List.lookup y.2.1 (drop_terminal_rows df x.2.1 x.2.2)).getD []))) =
      rest.map (fun y =>
        (y.1, vec_sub ((List.lookup y.2.2 df).getD []) ((List.lookup y.2.1 df).getD []))) := by
      apply List.map_congr_left
      intro y hy
      have hy1 : y.2.1 ∈ terminal_ids rest := by
        simp [terminal_ids, List.mem_flatMap]
        exact ⟨y.1, y.2.1, y.2.2, hy, Or.inl rfl⟩
      have hy2 : y.2.2 ∈ terminal_ids rest := by
        simp [terminal_ids, List.mem_flatMap]
        exact ⟨y.1, y.2.1, y.2.2, hy, Or.inr rfl⟩
      rw [hlookup_pres y.2.1 (fun hc => hx1_rest (hc ▸ hy1)) (fun hc => hx2_notin (hc ▸ hy1)),
        hlookup_pres y.2.2 (fun hc => hx1_rest (hc ▸ hy2)) (fun hc => hx2_notin (hc ▸ hy2))]
    refine ⟨rem, ?_, ?_, ?_⟩
    · simp only [hvdc_row_loop, hre, hro]
      rw [hloop, hmap_eq]
      simp [hro, hre]
    · intro k hk
      rw [hterms] at hk
      rcases List.mem_cons.mp hk with rfl | hk2
      · apply hnone
        exact lookup_filter_of_drop _ df x.2.1 (fun b => by simp)
      · rcases List.mem_cons.mp hk2 with rfl | hk3
        · apply hnone
          exact lookup_filter_of_drop _ df x.2.2 (fun b => by simp)
        · exact hterm k hk3
    · intro k hk
      exact hnone k (lookup_filter_of_none _ df k hk)

/-- Claim C5: when folding a sensitivity matrix, for every (hvdc, origin,
end) lever triple of the fict_gen table the returned HVDC row equals the
end-terminal fictitious-generator row minus the origin-terminal row of the
matrix, and both terminal-generator rows are removed from the generator
table that is returned, so neither fictitious generator appears as a lever
in the generator result.  The hypotheses state that every terminal
generator is present in the matrix and that the terminal and hvdc names are
pairwise distinct, which holds for the fict_gen dataframe the caller
builds. -/
theorem hvdc_lever_extraction (df0 : SensMatrix) (fg : List (String × String × String))
    (ct : List (String × ℚ))
    (hpres : ∀ x ∈ fg, (List.lookup x.2.1 df0).isSome ∧ (List.lookup x.2.2 df0).isSome)
    (hnd : (terminal_ids fg).Nodup) (hkeys : (fg.map Prod.fst).Nodup) :
    ∃ hvdc_rows gen_rows ct_vec,
      get_hvdc_sensitivities_from_generators df0 fg ct = some (hvdc_rows, gen_rows, ct_vec) ∧
      (∀ x ∈ fg, List.lookup x.1 hvdc_rows =
        some (vec_sub ((List.lookup x.2.2 df0).getD []) ((List.lookup x.2.1 df0).getD []))) ∧
      (∀ x ∈ fg, List.lookup x.2.1 gen_rows = none ∧ List.lookup x.2.2 gen_rows = none) := by
  obtain ⟨rem, hloop, hterm, -⟩ := hvdc_row_loop_spec fg df0 [] hpres hnd
  rw [List.nil_append] at hloop
  refine ⟨fg.map (fun x =>
      (x.1, vec_sub ((List.lookup x.2.2 df0).getD []) ((List.lookup x.2.1 df0).getD []))),
    rem.filter (fun p => !((ct.map Prod.fst).contains p.1)),
    (List.range (((df0.head?).map (fun p => p.2.length)).getD 0)).map (fun j =>
      ((rem.filter (fun p => (ct.map Prod.fst).contains p.1)).map
        (fun p => ct_coefficient ct p.1 * p.2.getD j 0)).sum), ?_, ?_, ?_⟩
  · simp only [get_hvdc_sensitivities_from_generators, hloop]
  · intro x hx
    exact lookup_map_rows fg _ x hx hkeys
  · intro x hx
    have h1 : x.2.1 ∈ terminal_ids fg := by
      simp [terminal_ids, List.mem_flatMap]
      exact ⟨x.1, x.2.1, x.2.2, hx, Or.inl rfl⟩
    have h2 : x.2.2 ∈ terminal_ids fg := by
      simp [terminal_ids, List.mem_flatMap]
      exact ⟨x.1, x.2.1, x.2.2, hx, Or.inr rfl⟩
    exact ⟨lookup_filter_of_none _ rem x.2.1 (hterm x.2.1 h1),
      lookup_filter_of_none _ rem x.2.2 (hterm x.2.2 h2)⟩

def df_witness : SensMatrix := [("GA", [1, 2]), ("GB", [10, 20]), ("GC", [5, 5])]

def fg_witness : List (String × String × String) := [("H1", "GA", "GB")]

theorem hvdc_lever_extraction_witness :
    ((∀ x ∈ fg_witness, (List.lookup x.2.1 df_witness).isSome ∧
        (List.lookup x.2.2 df_witness).isSome) ∧
      (terminal_ids fg_witness).Nodup ∧ (fg_witness.map Prod.fst).Nodup) ∧
    (∃ hvdc_rows gen_rows ct_vec,
      get_hvdc_sensitivities_from_generators df_witness fg_witness [] =
        some (hvdc_rows, gen_rows, ct_vec) ∧
      (∀ x ∈ fg_witness, List.lookup x.1 hvdc_rows =
        some (vec_sub ((List.lookup x.2.2 df_witness).getD [])
          ((List.lookup x.2.1 df_witness).getD []))) ∧
      (∀ x ∈ fg_witness, List.lookup x.2.1 gen_rows = none ∧
        List.lookup x.2.2 gen_rows = none)) :=
  ⟨⟨by decide, by decide, by decide⟩,
    hvdc_lever_extraction df_witness fg_witness [] (by decide) (by decide) (by decide)⟩

/-! ### ContingencyOrchestrator: the case loop of main
(calculate_sensitivities.py lines 216-277) with
apply_contingency_modification (aux.py lines 345-361) -/

/-- One case of the loop: the case name (the contingency element id, or N
for the base case) and the element type string taken from the contingencies
csv (empty for the base case). -/
structure ConCase where
  name : String
  elem_type : String
deriving DecidableEq

/-- Topology of one network variant, reduced to what the loop mutates: the
set (as a list) of element ids currently disconnected. -/
abbrev NetTopo := List String

/-- Set the connection status of the given element ids: status true
reconnects (removes from the disconnected set), status false disconnects
(adds each id once). -/
def set_connected (s : NetTopo) (ids : List String) (status : Bool) : NetTopo :=
  if status then s.filter (fun y => !(ids.contains y))
  else ids.foldl (fun acc i => if acc.contains i then acc else acc ++ [i]) s

/-- Embeds apply_contingency_modification (aux.py lines 345-361): an empty
element type does nothing; an ac_line or transformer toggles both terminals
of the named element; an hvdc_line additionally toggles the equivalent AC
line in lockstep when the case name is in the hvdc_lines_ac_emulation set. -/
def apply_contingency_modification (s : NetTopo) (c : ConCase) (emu : List String)
    (status : Bool) : NetTopo :=
  if c.elem_type = "" then s
  else if c.elem_type = "ac_line" then set_connected s [c.name] status
  else if c.elem_type = "transformer" then set_connected s [c.name] status
  else if c.elem_type = "hvdc_line" then
    set_connected s (c.name :: (if emu.contains c.name then ["ac_eq_line_" ++ c.name] else []))
      status
  else s

/-- The pypowsybl network with its variants: a total map from variant name
to topology plus the name of the working variant.  All element updates act
on the working variant. -/
structure VNet where
  variants : String → NetTopo
  working : String

def working_state (n : VNet) : NetTopo := n.variants n.working

def set_variant (n : VNet) (name : String) (s : NetTopo) : VNet :=
  { n with variants := fun v => if v = name then s else n.variants v }

/-- network.clone_variant(src, tgt): copy the source variant over the
target, overwriting it (may_overwrite defaults to true in pypowsybl). -/
def clone_variant (n : VNet) (src tgt : String) : VNet := set_variant n tgt (n.variants src)

/-- network.set_working_variant(name). -/
def set_working_variant (n : VNet) (name : String) : VNet := { n with working := name }

/-- An element update applied to the working variant. -/
def modify_working (n : VNet) (f : NetTopo → NetTopo) : VNet :=
  set_variant n n.working (f (working_state n))

def initial_name : String := "InitialState"

def contingency_variant : String := "current_contingency"

/-- Result of one iteration of the case loop: the network state afterwards,
whether the case was skipped for non-convergence, the names of the cases
for which the sensitivity block ran (empty or the case name), and the list
of topologies handed to lf.run_ac in order. -/
structure IterResult where
  net : VNet
  skipped : Bool
  emitted : List String
  lf_trace : List NetTopo

/-- Embeds one iteration of the contingency loop (calculate_sensitivities.py
lines 219-277), with the convergence verdict of the nonlinear power flow
abstracted by conv.  The baseline is cloned onto the contingency variant,
the working variant switched there, and the contingency applied.  If the
power flow converges the sensitivity block runs and the working variant is
switched back to the baseline.  Otherwise the element is reconnected, the
power flow re-run on the healthy state, the disconnection reapplied and the
power flow retried once; on success the case proceeds as normal, and on a
second failure the iteration ends with continue, producing no entries and
leaving the working variant on the mutated contingency variant. -/
def iter_case (conv : NetTopo → Bool) (emu : List String) (n : VNet) (c : ConCase) :
    IterResult :=
  let n1 := clone_variant n initial_name contingency_variant
  let n2 := set_working_variant n1 contingency_variant
  let n3 := modify_working n2 (fun s => apply_contingency_modification s c emu false)
  let s1 := working_state n3
  if conv s1 then
    { net := set_working_variant n3 initial_name, skipped := false,
      emitted := [c.name], lf_trace := [s1] }
  else
    let n4 := modify_working n3 (fun s => apply_contingency_modification s c emu true)
    let s2 := working_state n4
    let n5 := modify_working n4 (fun s => apply_contingency_modification s c emu false)
    let s3 := working_state n5
    if conv s3 then
      { net := set_working_variant n5 initial_name, skipped := false,
        emitted := [c.name], lf_trace := [s1, s2, s3] }
    else
      { net := n5, skipped := true, emitted := [], lf_trace := [s1, s2, s3] }

/-- The whole case loop: iterate iter_case over the case list, collecting
the case names for which sensitivity entries were produced. -/
def run_cases (conv : NetTopo → Bool) (emu : List String) : VNet → List ConCase →
    VNet × List String
  | n, [] => (n, [])
  | n, c :: cs =>
    let r := iter_case conv emu n c
    let rest := run_cases conv emu r.net cs
    (rest.1, r.emitted ++ rest.2)

/-- Topology solved on the first attempt of a case: the baseline with the
contingency applied. -/
def applied_state (emu : List String) (n : VNet) (c : ConCase) : NetTopo :=
  apply_contingency_modification (n.variants initial_name) c emu false

/-- Topology solved to confirm baseline health after a failed first
attempt: the element reconnected. -/
def reconnected_state (emu : List String) (n : VNet) (c : ConCase) : NetTopo :=
  apply_contingency_modification (applied_state emu n c) c emu true

/-- Topology solved on the single retry: the disconnection reapplied. -/
def retried_state (emu : List String) (n : VNet) (c : ConCase) : NetTopo :=
  apply_contingency_modification (reconnected_state emu n c) c emu false

theorem working_state_modify (n : VNet) (f : NetTopo → NetTopo) :
    working_state (modify_working n f) = f (working_state n) := by
  simp [working_state, modify_working, set_variant]

theorem working_state_clone_set (n : VNet) :
    working_state (set_working_variant (clone_variant n initial_name contingency_variant)
      contingency_variant) = n.variants initial_name := by
  simp [working_state, set_working_variant, clone_variant, set_variant]

/-- Claim C1: for a case whose first nonlinear power-flow solve does not
converge, the iteration solves exactly three times - the applied topology,
the reconnected baseline to confirm health, and the reapplied topology
(the single retry) - the sensitivity block runs exactly when the retry
converges, and when the retry also fails the case contributes no entries
and the loop continues with the remaining cases from the post-skip state
instead of aborting. -/
theorem contingency_retry_once_and_skip (conv : NetTopo → Bool) (emu : List String)
    (n : VNet) (c : ConCase) (rest : List ConCase)
    (h1 : conv (applied_state emu n c) = false) :
    (iter_case conv emu n c).lf_trace =
      [applied_state emu n c, reconnected_state emu n c, retried_state emu n c] ∧
    (iter_case conv emu n c).emitted =
      (if conv (retried_state emu n c) then [c.name] else []) ∧
    (conv (retried_state emu n c) = false →
      run_cases conv emu n (c :: rest) = run_cases conv emu (iter_case conv emu n c).net rest) := by
  simp only [applied_state, reconnected_state, retried_state] at h1 ⊢
  have hsplit : (iter_case conv emu n c).lf_trace =
      [apply_contingency_modification (n.variants initial_name) c emu false,
        apply_contingency_modification
          (apply_contingency_modification (n.variants initial_name) c emu false) c emu true,
        apply_contingency_modification (apply_contingency_modification
          (apply_contingency_modification (n.variants initial_name) c emu false) c emu true)
          c emu false] ∧
      (iter_case conv emu n c).emitted =
        (if conv (apply_contingency_modification (apply_contingency_modification
          (apply_contingency_modification (n.variants initial_name) c emu false) c emu true)
          c emu false) then [c.name] else []) := by
    simp only [iter_case, working_state_modify, working_state_clone_set, h1]
    by_cases h2 : conv (apply_contingency_modification (apply_contingency_modification
        (apply_contingency_modification (n.variants initial_name) c emu false) c emu true)
        c emu false)
    · simp [h2]
    · simp [h2]
  refine ⟨hsplit.1, hsplit.2, ?_⟩
  intro h2
  have hemit : (iter_case conv emu n c).emitted = [] := by
    rw [hsplit.2, h2]
    simp
  simp only [run_cases, hemit, List.nil_append]

/-- Convergence oracle for the concrete runs: the power flow converges
exactly when no element is disconnected. -/
def conv0 : NetTopo → Bool := fun s => s.isEmpty

/-- Baseline network: nothing disconnected in any variant, working variant
the initial state. -/
def n0 : VNet := { variants := fun _ => [], working := initial_name }

def case0 : ConCase := { name := "L1", elem_type := "ac_line" }

def case1 : ConCase := { name := "L2", elem_type := "ac_line" }

theorem contingency_retry_once_and_skip_witness :
    conv0 (applied_state [] n0 case0) = false ∧
    ((iter_case conv0 [] n0 case0).lf_trace =
      [applied_state [] n0 case0, reconnected_state [] n0 case0, retried_state [] n0 case0] ∧
    (iter_case conv0 [] n0 case0).emitted =
      (if conv0 (retried_state [] n0 case0) then [case0.name] else []) ∧
    (conv0 (retried_state [] n0 case0) = false →
      run_cases conv0 [] n0 (case0 :: [case1]) =
        run_cases conv0 [] (iter_case conv0 [] n0 case0).net [case1])) :=
  ⟨by decide, contingency_retry_once_and_skip conv0 [] n0 case0 [case1] (by decide)⟩

/-- Counterexample to claim C2: on the unconverged-skip exit path the
working state is not restored to the baseline variant before the next
iteration begins - after the skipped iteration the working variant is still
the contingency variant and the contingency element is still disconnected
in the active working state. -/
theorem variant_not_restored_on_skip :
    (iter_case conv0 [] n0 case0).skipped = true ∧
    (iter_case conv0 [] n0 case0).net.working = contingency_variant ∧
    contingency_variant ≠ initial_name ∧
    working_state (iter_case conv0 [] n0 case0).net = ["L1"] := by
  refine ⟨rfl, rfl, by decide, rfl⟩

/-- Claim C2 (amended): the baseline variant itself is never mutated by an
iteration; on the converged paths the working variant is switched back to
the baseline at the end of the iteration, while on the unconverged-skip
path it stays on the contingency variant; in every case the clone at the
start of the next iteration overwrites the contingency variant with the
baseline, so the working state equals the baseline topology again before
the next contingency is applied and no topology mutation of one case is
part of the state the next case solves. -/
theorem variant_scope_amended (conv : NetTopo → Bool) (emu : List String)
    (n : VNet) (c : ConCase) :
    (iter_case conv emu n c).net.variants initial_name = n.variants initial_name ∧
    (iter_case conv emu n c).net.working =
      (if (iter_case conv emu n c).skipped then contingency_variant else initial_name) ∧
    working_state (set_working_variant (clone_variant (iter_case conv emu n c).net
      initial_name contingency_variant) contingency_variant) = n.variants initial_name := by
  have hini : initial_name ≠ contingency_variant := by decide
  simp only [iter_case, working_state_modify, working_state_clone_set]
  split_ifs with hA hB <;>
    simp_all [set_working_variant, clone_variant, set_variant, modify_working, working_state,
      hini]
